import Mathlib

/-!
Verification of the useless-test-detector engine (`src/index.ts`).

The engine is a pure function from a filesystem snapshot and a configuration
to a list of suspicious test-file records.  We give a shallow embedding:

* file text is modelled as `List Char` (JavaScript strings, ASCII fragment);
* each regular expression used by the detectors is compiled by hand into an
  executable matcher on `List Char`, following the regex's backtracking
  semantics (comments at each matcher justify determinism of the translation);
* the filesystem is a tree of named entries (`FSList`); file contents carry an
  `Option String` where `none` models a `readFileSync` call that throws
  (e.g. the file vanished between enumeration and read, or the path names a
  directory); a root directory whose listing is unavailable is a `none` in the
  root map, modelling the `readdirSync` failure caught by `findTestFiles`;
* `detectUselessTests` returns `Except String _`: an uncaught JavaScript
  exception during the per-file analysis is modelled as `Except.error`.

All definitions are computable and evaluate by kernel reduction.
-/

/-! ### Character classes (JS regex, ASCII fragment)

`\w` is `[A-Za-z0-9_]`; `\s` is whitespace (we model the ASCII part: space,
tab, newline, carriage return, vertical tab, form feed).  `.` matches
everything except line terminators (we model `\n` and `\r`). -/

def isWordChar (c : Char) : Bool :=
  c.isAlpha || c.isDigit || c = '_'

def isSpaceJS (c : Char) : Bool :=
  c = ' ' || c = '\t' || c = '\n' || c = '\r' || c = '\x0b' || c = '\x0c'

def isQuote (c : Char) : Bool :=
  c = '\x27' || c = '"'

/-! ### Basic scanning primitives -/

/-- `startsWithL hay needle`: `needle` occurs at the very start of `hay`. -/
def startsWithL : List Char → List Char → Bool
  | _, [] => true
  | [], _ :: _ => false
  | a :: as, b :: bs => a = b && startsWithL as bs

/-- `endsWithL l s`: `s` occurs at the very end of `l`. -/
def endsWithL (l s : List Char) : Bool :=
  startsWithL l.reverse s.reverse

/-- `existsPos cs p`: some suffix of `cs` (including the empty one) satisfies
`p`.  This is the unanchored regex scan: try every start position. -/
def existsPos (cs : List Char) (p : List Char → Bool) : Bool :=
  match cs with
  | [] => p []
  | c :: rest => p (c :: rest) || existsPos rest p

/-- JS `String.prototype.includes`. -/
def containsL (hay needle : List Char) : Bool :=
  existsPos hay (fun l => startsWithL l needle)

/-! ### Matchers returning the number of characters consumed

A matcher `List Char → Option Nat` returns `some n` when the regex fragment
matches a prefix of length `n` of the input.  `mseq` sequences two
fragments. -/

def matchLit (s : List Char) (l : List Char) : Option Nat :=
  if startsWithL l s then some s.length else none

/-- `\w+` — one or more word characters, greedy.  Wherever we use it the
following regex atom cannot match a word character, so the maximal run is the
only possible extent and the translation is exact; the one exception
(detector 1's role suffix) handles backtracking explicitly in `findGreedy`. -/
def matchWordRun (l : List Char) : Option Nat :=
  let n := (l.takeWhile isWordChar).length
  if n = 0 then none else some n

/-- `\s*` — greedy; the atoms that follow it in the source regexes never match
whitespace, so the maximal run is exact. -/
def matchSpaceRun0 (l : List Char) : Option Nat :=
  some (l.takeWhile isSpaceJS).length

/-- `\s+`. -/
def matchSpaceRun1 (l : List Char) : Option Nat :=
  let n := (l.takeWhile isSpaceJS).length
  if n = 0 then none else some n

/-- `[^}]+` — greedy; always followed by `}` in the source regex, so maximal. -/
def matchNonBraceRun1 (l : List Char) : Option Nat :=
  let n := (l.takeWhile (fun c => c ≠ '\x7d')).length
  if n = 0 then none else some n

def mseq (m1 m2 : List Char → Option Nat) (l : List Char) : Option Nat :=
  match m1 l with
  | none => none
  | some a =>
    match m2 (l.drop a) with
    | none => none
    | some b => some (a + b)

/-- Global regex scan without anchors: count the non-overlapping, leftmost
matches of `m`, as `String.prototype.match` with the `g` flag does.  `skip`
is the number of characters of the current match still to be consumed. -/
def countMatchesGo (m : List Char → Option Nat) : List Char → Nat → Nat
  | [], _ => 0
  | _ :: rest, skip + 1 => countMatchesGo m rest skip
  | c :: rest, 0 =>
    match m (c :: rest) with
    | some n => 1 + countMatchesGo m rest (n - 1)
    | none => countMatchesGo m rest 0

def countMatches (m : List Char → Option Nat) (cs : List Char) : Nat :=
  countMatchesGo m cs 0

/-! ### Detector 1: inline re-implementations

`/^\s*(function|class|const)\s+\w+(Buffer|Parser|Handler|Helper|Manager|Service|Client|Builder|Strategy)/gm`

The match count is reported in the reason text.  `^` with the `m` flag anchors
each match at the start of the text or just after a line terminator —
ECMA-262 LineTerminator, i.e. `\n` or `\r` in the ASCII fragment modelled
here (in `"\r\n"` both positions after `\r` and after `\n` are line starts);
`\s*` may then span further line terminators.  The keyword alternatives start with pairwise distinct
non-whitespace letters, so at most one alternative can apply and the greedy
`\s*`/`\s+` runs are exact.  The role suffix sits inside the `\w+` run, so
`\w+` backtracks from its maximal extent; `findGreedy` reproduces that. -/

def roleSuffixes : List (List Char) :=
  ["Buffer".data, "Parser".data, "Handler".data, "Helper".data, "Manager".data,
   "Service".data, "Client".data, "Builder".data, "Strategy".data]

/-- First alternative of the suffix group matching at `l`, and its length. -/
def pickSuffix (l : List Char) : Option Nat :=
  (roleSuffixes.find? (fun s => startsWithL l s)).map List.length

/-- Greedy `\w+(Buffer|…)`: try the longest word-run extent first (`k` down to
1); result is `k` plus the suffix length. -/
def findGreedy (l : List Char) : Nat → Option Nat
  | 0 => none
  | k + 1 =>
    match pickSuffix (l.drop (k + 1)) with
    | some slen => some (k + 1 + slen)
    | none => findGreedy l k

def matchKeyword (l : List Char) : Option Nat :=
  if startsWithL l "function".data then some 8
  else if startsWithL l "class".data then some 5
  else if startsWithL l "const".data then some 5
  else none

/-- One attempted match of the detector-1 regex at the current position
(the `^` anchor is enforced by the caller). -/
def matchAt1 (l : List Char) : Option Nat :=
  let ws := (l.takeWhile isSpaceJS).length
  let l1 := l.drop ws
  match matchKeyword l1 with
  | none => none
  | some kwLen =>
    let l2 := l1.drop kwLen
    let ws2 := (l2.takeWhile isSpaceJS).length
    if ws2 = 0 then none
    else
      let l3 := l2.drop ws2
      let runLen := (l3.takeWhile isWordChar).length
      match findGreedy l3 runLen with
      | some m => some (ws + kwLen + ws2 + m)
      | none => none

/-- JS multiline `^` matches just after an ECMA-262 LineTerminator: `\n` or
`\r` (the non-ASCII `\u2028`/`\u2029` are outside the ASCII fragment
modelled here). -/
def isLineTerm (c : Char) : Bool :=
  c = '\n' || c = '\r'

/-- Global multiline scan for detector 1: only positions at the start of the
text or just after a line terminator can begin a match; after a match the
scan resumes at its end (`skip` characters later).  Every successful match
ends in a letter, so the position right after a match is never a line start
until a new line terminator has been seen; the flag is recomputed from each
consumed character. -/
def scan1Go : List Char → Nat → Bool → Nat
  | [], _, _ => 0
  | c :: rest, skip + 1, _ => scan1Go rest skip (isLineTerm c)
  | c :: rest, 0, atStart =>
    if atStart then
      match matchAt1 (c :: rest) with
      | some n => 1 + scan1Go rest (n - 1) (isLineTerm c)
      | none => scan1Go rest 0 (isLineTerm c)
    else scan1Go rest 0 (isLineTerm c)

/-- `content.match(/^\s*(function|class|const)\s+\w+(Buffer|…)/gm)?.length ?? 0` -/
def inlineImplCount (cs : List Char) : Nat :=
  scan1Go cs 0 true

/-! ### Detector 2: type-only tests -/

/-- `/import type|interface \w+|type \w+ =/` (tested as a boolean).
For `interface \w+` only the existence of one word character matters; for
`type \w+ =` the `\w+` run must be followed by `" ="` — a space never being a
word character, only the maximal run needs the check, but we keep the general
"some split of the run" reading, which coincides. -/
def wordRunThen (after : List Char) : List Char → Bool
  | [] => false
  | c :: rest => isWordChar c && (startsWithL rest after || wordRunThen after rest)

def hasTypeImports (cs : List Char) : Bool :=
  containsL cs "import type".data ||
  existsPos cs (fun l => startsWithL l "interface ".data &&
    (match l.drop 10 with
     | c :: _ => isWordChar c
     | [] => false)) ||
  existsPos cs (fun l => startsWithL l "type ".data && wordRunThen " =".data (l.drop 5))

/-- `/render\(|renderHook\(|new \w+\(|\.toHaveBeenCalled/` -/
def hasRuntimeTests (cs : List Char) : Bool :=
  containsL cs "render(".data ||
  containsL cs "renderHook(".data ||
  existsPos cs (fun l => startsWithL l "new ".data && wordRunThen "(".data (l.drop 4)) ||
  containsL cs ".toHaveBeenCalled".data

def typeOnlyCond (cs : List Char) : Bool :=
  hasTypeImports cs && !(hasRuntimeTests cs)

/-! ### Detector 3: mock objects asserted on hardcoded values

`/const \w+:\s*\w+\s*=\s*\{[^}]+\};\s+expect\(\w+\.\w+\)/g`, counted.
Every greedy run in the sequence is followed by an atom that cannot match a
character of the run (see the individual matchers), so the sequential
translation is exact. -/

def matchAt3 : List Char → Option Nat :=
  mseq (matchLit "const ".data) (mseq matchWordRun (mseq (matchLit ":".data)
    (mseq matchSpaceRun0 (mseq matchWordRun (mseq matchSpaceRun0
    (mseq (matchLit "=".data) (mseq matchSpaceRun0 (mseq (matchLit ['\x7b'])
    (mseq matchNonBraceRun1 (mseq (matchLit ['\x7d']) (mseq (matchLit ";".data)
    (mseq matchSpaceRun1 (mseq (matchLit "expect(".data) (mseq matchWordRun
    (mseq (matchLit ".".data) (mseq matchWordRun (matchLit ")".data)))))))))))))))))

def mockAssertionCount (cs : List Char) : Nat :=
  countMatches matchAt3 cs

/-! ### Detector 4: no imports from actual source code -/

/-- One attempted match of
`/from ['"]\.\.+(\/[^'"]*)?(?<!\.test)(?<!\.spec)['"]/` at the current
position.  `\.\.+` demands at least two dots — a sibling import `./x` never
matches.  The greedy dot run and the greedy `[^'"]*` run are exact (shrinking
them puts a dot resp. a non-quote where `/`-or-quote resp. a quote is
required).  The two negative lookbehinds inspect the five characters before
the closing quote; when the quoted path holds fewer than five characters the
window reaches back across the opening quote, which is not a character of
`.test`/`.spec`, so the lookbehinds can only fail inside the path itself. -/
def srcImportAt (l : List Char) : Bool :=
  startsWithL l "from ".data &&
  (match l.drop 5 with
   | [] => false
   | q :: r2 =>
     isQuote q &&
     (let dots := (r2.takeWhile (fun c => c = '.')).length
      decide (2 ≤ dots) &&
      (let dotChars : List Char := List.replicate dots '.'
       match r2.drop dots with
       | [] => false
       | c3 :: r4 =>
         if c3 = '/' then
           let run := r4.takeWhile (fun c => !(isQuote c))
           (match r4.drop run.length with
            | [] => false
            | c5 :: _ =>
              isQuote c5 &&
              !(endsWithL (dotChars ++ '/' :: run) ".test".data) &&
              !(endsWithL (dotChars ++ '/' :: run) ".spec".data))
         else
           isQuote c3 &&
           !(endsWithL dotChars ".test".data) &&
           !(endsWithL dotChars ".spec".data))))

def hasSourceImports (cs : List Char) : Bool :=
  existsPos cs srcImportAt

def hasTestingLibImports (cs : List Char) : Bool :=
  containsL cs "@testing-library".data

/-- `/[/\\](integration|e2e)\.test\.(ts|tsx|js|jsx|mjs|cjs)$/.test(filePath)`:
the path-separator character must immediately precede `integration`/`e2e`,
and the extension ends the path. -/
def integrationSuffixes : List (List Char) :=
  (["/", "\\"].flatMap fun sep =>
    (["integration", "e2e"].flatMap fun mid =>
      (["ts", "tsx", "js", "jsx", "mjs", "cjs"].map fun ext =>
        (sep ++ mid ++ ".test." ++ ext).data)))

def isIntegrationTest (filePath : String) : Bool :=
  integrationSuffixes.any (fun s => endsWithL filePath.data s)

def noSourceImportCond (filePath : String) (cs : List Char) : Bool :=
  hasTestingLibImports cs && !(hasSourceImports cs) && !(isIntegrationTest filePath)

/-! ### Detector 5: admission comments -/

def admissionCond (cs : List Char) : Bool :=
  containsL cs "In a real test".data || containsL cs "would be actual".data

/-! ### Detector 6: built-in-only assertions

`/expect\(typeof|expect\(.*\)\.toBe\(['"](?:string|number|boolean)/g`,
counted, against the count of `/expect\(/g`.  In the second alternative `.`
excludes line terminators and is greedy: the longest extent that lets the
tail match wins, which also fixes the match length for the global scan. -/

def quoteKind (l : List Char) : Option Nat :=
  match l with
  | [] => none
  | c :: rest =>
    if isQuote c then
      match (["string".data, "number".data, "boolean".data].find?
              (fun s => startsWithL rest s)).map List.length with
      | some slen => some (1 + slen)
      | none => none
    else none

def tail6 : List Char → Option Nat :=
  mseq (matchLit ").toBe(".data) quoteKind

/-- Greedy `.*` before `tail6`: try the longest dot-run extent first. -/
def greedy6 (l : List Char) : Nat → Option Nat
  | 0 => tail6 l
  | j + 1 =>
    match tail6 (l.drop (j + 1)) with
    | some n => some (j + 1 + n)
    | none => greedy6 l j

def dotStarTail (l : List Char) : Option Nat :=
  greedy6 l ((l.takeWhile (fun c => c ≠ '\n' && c ≠ '\r')).length)

def matchAt6 (l : List Char) : Option Nat :=
  match matchLit "expect(typeof".data l with
  | some n => some n
  | none => mseq (matchLit "expect(".data) dotStarTail l

def builtinAssertionCount (cs : List Char) : Nat :=
  countMatches matchAt6 cs

def totalExpectCount (cs : List Char) : Nat :=
  countMatches (matchLit "expect(".data) cs

/-- `testsBuiltins && totalExpects > 0 && testsBuiltins.length/totalExpects > 0.5`.
For counts of this size the floating-point comparison agrees with the exact
rational one, i.e. with `totalExpects < 2 * builtins`. -/
def builtinOnlyCond (cs : List Char) : Bool :=
  decide (0 < builtinAssertionCount cs) && decide (0 < totalExpectCount cs) &&
  decide (totalExpectCount cs < 2 * builtinAssertionCount cs)

/-! ### Detector 7: fake integration tests -/

def hasFetch (cs : List Char) : Bool :=
  containsL cs "fetch(".data || containsL cs "request(".data ||
  containsL cs "axios.".data || containsL cs "supertest".data

def hasRender (cs : List Char) : Bool :=
  containsL cs "render(".data

def fakeIntegrationCond (filePath : String) (cs : List Char) : Bool :=
  isIntegrationTest filePath && !(hasFetch cs) && !(hasRender cs)

/-! ### Per-file analysis (`analyzeTestFile`) -/

structure SuspiciousTest where
  file : String
  reasons : List String
  confidence : String
  lineCount : Nat
deriving DecidableEq, Repr

/-- Reason string of detector 1 (the count is interpolated). -/
def reason1 (n : Nat) : String :=
  "Defines " ++ toString n ++ " inline implementation(s) instead of importing real ones"

def reason2 : String := "Appears to test TypeScript types, not runtime behavior"

/-- Reason string of detector 3 (the count is interpolated). -/
def reason3 (n : Nat) : String :=
  "Creates " ++ toString n ++ " mock objects and asserts on hardcoded values"

def reason4 : String := "No imports from actual implementation (only test utilities)"

def reason5 : String := "Contains comments admitting these aren\x27t real tests"

def reason6 : String := "More than 50% of assertions test JavaScript built-ins (typeof, etc)"

def reason7 : String := "Integration test that never makes HTTP requests or renders components"

/-- The reason list pushed by the seven detectors, in source order. -/
def reasonsOf (filePath : String) (cs : List Char) : List String :=
  (if 0 < inlineImplCount cs then [reason1 (inlineImplCount cs)] else []) ++
  (if typeOnlyCond cs then [reason2] else []) ++
  (if 3 < mockAssertionCount cs then [reason3 (mockAssertionCount cs)] else []) ++
  (if noSourceImportCond filePath cs then [reason4] else []) ++
  (if admissionCond cs then [reason5] else []) ++
  (if builtinOnlyCond cs then [reason6] else []) ++
  (if fakeIntegrationCond filePath cs then [reason7] else [])

/-- `content.split('\n').length`: one more than the number of newlines. -/
def jsLineCount (cs : List Char) : Nat :=
  1 + (cs.filter (fun c => c = '\n')).length

/-- `analyzeTestFile`, given the file's text (the `readFileSync` call is
modelled at the call site in `detectUselessTests`). -/
def analyzeTestFile (filePath : String) (content : String) : Option SuspiciousTest :=
  let reasons := reasonsOf filePath content.data
  if reasons.length = 0 then none
  else some {
    file := filePath
    reasons := reasons
    confidence :=
      if 3 ≤ reasons.length then "high"
      else if 2 ≤ reasons.length then "medium"
      else "low"
    lineCount := jsLineCount content.data
  }

/-! ### File locator (`findTestFiles`) -/

/-- A directory listing: each item is a file (with the content a later
`readFileSync` would deliver — `none` if that read throws) or a
subdirectory with its own listing.  `consDir` items answer
`statSync(...).isDirectory()` with true, `consFile` items with false. -/
inductive FSList where
  | nil : FSList
  | consFile (name : String) (content : Option String) (rest : FSList) : FSList
  | consDir (name : String) (entries : FSList) (rest : FSList) : FSList
deriving DecidableEq

/-- The filesystem as seen from the scan roots: `readdirSync dir` for a root
directory `dir`, `none` when that call throws (missing/unreadable root). -/
def FileSystem : Type := String → Option FSList

/-- `path.join` (POSIX). -/
def joinPath (dir item : String) : String :=
  dir ++ "/" ++ item

def DEFAULT_TEST_PATTERNS : List (String → Bool) :=
  [fun name =>
    ((["test", "spec"].flatMap fun kind =>
       ["ts", "tsx", "js", "jsx", "mjs", "cjs"].map fun ext =>
         "." ++ kind ++ "." ++ ext)).any
      (fun suf => endsWithL name.data suf.data)]

/-- The recursive walk of `findTestFiles` over one directory listing.
A subdirectory is entered unless its name contains `node_modules` or `dist`
(in which case it falls through to the pattern test, like any non-entered
item); matching items are reported with the content its later read yields
(`none` for a directory, since `readFileSync` on a directory throws). -/
def findInListing (dirPath : String) (patterns : List (String → Bool)) :
    FSList → List (String × Option String)
  | .nil => []
  | .consFile name content rest =>
    (if patterns.any (fun pat => pat name) then [(joinPath dirPath name, content)] else []) ++
    findInListing dirPath patterns rest
  | .consDir name entries rest =>
    (if !(containsL name.data "node_modules".data) && !(containsL name.data "dist".data) then
      findInListing (joinPath dirPath name) patterns entries
     else if patterns.any (fun pat => pat name) then [(joinPath dirPath name, none)]
     else []) ++
    findInListing dirPath patterns rest

/-- `findTestFiles(dir, patterns)`: the `try`/`catch` around `readdirSync`
turns an unreadable root into an empty result. -/
def findTestFiles (fs : FileSystem) (dir : String)
    (patterns : List (String → Bool)) : List (String × Option String) :=
  match fs dir with
  | none => []
  | some listing => findInListing dir patterns listing

/-! ### Suite scanner (`detectUselessTests`) -/

structure DetectorOptions where
  directories : Option (List String)
  minConfidence : Option String
  testPatterns : Option (List (String → Bool))

/-- `const confidenceLevels = { high: 3, medium: 2, low: 1 }` — JS property
lookup, `none` for any other key (JS `undefined`). -/
def confidenceLevels (s : String) : Option Nat :=
  if s = "high" then some 3
  else if s = "medium" then some 2
  else if s = "low" then some 1
  else none

/-- JS `x >= y` where either operand may be `undefined`: any ordering
comparison involving `undefined` is false. -/
def jsGE : Option Nat → Option Nat → Bool
  | some a, some b => decide (b ≤ a)
  | _, _ => false

/-- The comparator passed to `.sort`: confidence rank descending, then line
count descending.  Record confidences are always `high`/`medium`/`low`, so
the `getD 0` completion of the JS property lookup is never exercised. -/
def scanCompare (a b : SuspiciousTest) : Int :=
  let confidenceDiff : Int :=
    ((confidenceLevels b.confidence).getD 0 : Int) -
    ((confidenceLevels a.confidence).getD 0 : Int)
  if confidenceDiff ≠ 0 then confidenceDiff
  else (b.lineCount : Int) - (a.lineCount : Int)

def scanLE (a b : SuspiciousTest) : Bool :=
  decide (scanCompare a b ≤ 0)

/-- Stable insertion into a sorted list: an element moves past `y` only while
`le y x` holds, so equal elements keep their relative order. -/
def insertIntoSorted (le : SuspiciousTest → SuspiciousTest → Bool)
    (x : SuspiciousTest) : List SuspiciousTest → List SuspiciousTest
  | [] => [x]
  | y :: ys => if le y x then y :: insertIntoSorted le x ys else x :: y :: ys

/-- ES2019 `Array.prototype.sort` is stable, and with a consistent comparator
the stable result is unique, so insertion sort is a faithful model. -/
def stableSort (le : SuspiciousTest → SuspiciousTest → Bool)
    (l : List SuspiciousTest) : List SuspiciousTest :=
  l.foldl (fun acc x => insertIntoSorted le x acc) []

/-- `allTestFiles.map(analyzeTestFile)`: the `readFileSync` inside
`analyzeTestFile` has no `try`/`catch`, so the first file whose read throws
aborts the whole map with that exception (modelled by the path as the error
value). -/
def readAndAnalyzeAll : List (String × Option String) →
    Except String (List (Option SuspiciousTest))
  | [] => .ok []
  | (p, none) :: _ => .error p
  | (p, some c) :: rest =>
    match readAndAnalyzeAll rest with
    | .error e => .error e
    | .ok tail => .ok (analyzeTestFile p c :: tail)

def detectUselessTests (fs : FileSystem) (options : DetectorOptions) :
    Except String (List SuspiciousTest) :=
  let directories := options.directories.getD ["src", "api"]
  let minConfidence := options.minConfidence.getD "low"
  let testPatterns := options.testPatterns.getD DEFAULT_TEST_PATTERNS
  let allTestFiles := directories.flatMap (fun dir => findTestFiles fs dir testPatterns)
  match readAndAnalyzeAll allTestFiles with
  | .error e => .error e
  | .ok analyzed =>
    let suspicious := analyzed.filterMap id
    let minLevel := confidenceLevels minConfidence
    .ok (stableSort scanLE
      (suspicious.filter (fun t => jsGE (confidenceLevels t.confidence) minLevel)))

/-! ### Statement-level definitions -/

/-- The files enumerated by one scan (the `allTestFiles` accumulator of
`detectUselessTests`). -/
def scanFiles (fs : FileSystem) (options : DetectorOptions) :
    List (String × Option String) :=
  (options.directories.getD ["src", "api"]).flatMap
    (fun dir => findTestFiles fs dir (options.testPatterns.getD DEFAULT_TEST_PATTERNS))

def isOkB : Except String (List SuspiciousTest) → Bool
  | .ok _ => true
  | .error _ => false

/-- Confidence rank used by the filter and the sort: high 3, medium 2, low 1. -/
def confidenceRank (s : String) : Nat :=
  (confidenceLevels s).getD 0

/-- The order the spec asserts of an output sequence: confidence rank
non-increasing, and line count non-increasing among equal confidences. -/
def outputOrder (a b : SuspiciousTest) : Prop :=
  confidenceRank b.confidence ≤ confidenceRank a.confidence ∧
  (a.confidence = b.confidence → b.lineCount ≤ a.lineCount)

/-! ### Concrete filesystems used by the witnesses -/

/-- One healthy file and one whose read throws. -/
def exampleFSErr : FileSystem := fun d =>
  if d = "src" then
    some (.consFile "a.test.ts" (some "content") (.consFile "b.test.ts" none .nil))
  else none

/-- One file triggering only detector 5. -/
def exampleFS1 : FileSystem := fun d =>
  if d = "src" then
    some (.consFile "a.test.ts" (some "In a real test") .nil)
  else none

/-- Two files triggering only detector 5, with different line counts. -/
def exampleFS2 : FileSystem := fun d =>
  if d = "src" then
    some (.consFile "a.test.ts" (some "In a real test")
         (.consFile "b.test.ts" (some "In a real test\n\n") .nil))
  else none

/-- One file triggering detectors 1, 2 and 5 (confidence high). -/
def exampleFS3 : FileSystem := fun d =>
  if d = "src" then
    some (.consFile "c.test.ts" (some "class FooBuffer\nIn a real test\ninterface X") .nil)
  else none

/-! ### Helper lemmas about reason strings and the analyzer -/

lemma ne_of_data_head {s t : String} (h : s.data.head? ≠ t.data.head?) : s ≠ t :=
  fun e => h (e ▸ rfl)

lemma reason1_ne_reason4 (n : Nat) : reason1 n ≠ reason4 := by
  apply ne_of_data_head
  rw [show (reason1 n).data.head? = some 'D' from rfl,
      show reason4.data.head? = some 'N' from rfl]
  decide

lemma reason3_ne_reason4 (n : Nat) : reason3 n ≠ reason4 := by
  apply ne_of_data_head
  rw [show (reason3 n).data.head? = some 'C' from rfl,
      show reason4.data.head? = some 'N' from rfl]
  decide

lemma reason1_ne_reason7 (n : Nat) : reason1 n ≠ reason7 := by
  apply ne_of_data_head
  rw [show (reason1 n).data.head? = some 'D' from rfl,
      show reason7.data.head? = some 'I' from rfl]
  decide

lemma reason3_ne_reason7 (n : Nat) : reason3 n ≠ reason7 := by
  apply ne_of_data_head
  rw [show (reason3 n).data.head? = some 'C' from rfl,
      show reason7.data.head? = some 'I' from rfl]
  decide

lemma not_mem_piece {x r : String} {c : Prop} [Decidable c] (hne : x ≠ r) :
    x ∉ (if c then [r] else []) := by
  split <;> simp [hne]

lemma mem_piece_self {r : String} {c : Prop} [Decidable c] :
    r ∈ (if c then [r] else []) ↔ c := by
  split <;> simp_all

/-- `reason4` appears in the reason list exactly when detector 4 triggered. -/
lemma mem_reasonsOf_reason4 (p : String) (cs : List Char) :
    reason4 ∈ reasonsOf p cs ↔ noSourceImportCond p cs = true := by
  constructor
  · intro h
    simp only [reasonsOf, List.mem_append] at h
    rcases h with ((((((h | h) | h) | h) | h) | h) | h)
    · exact absurd h (not_mem_piece (reason1_ne_reason4 _).symm)
    · exact absurd h (not_mem_piece (by decide))
    · exact absurd h (not_mem_piece (reason3_ne_reason4 _).symm)
    · exact mem_piece_self.mp h
    · exact absurd h (not_mem_piece (by decide))
    · exact absurd h (not_mem_piece (by decide))
    · exact absurd h (not_mem_piece (by decide))
  · intro h
    simp only [reasonsOf, List.mem_append]
    exact Or.inl (Or.inl (Or.inl (Or.inr (mem_piece_self.mpr h))))

/-- `reason7` appears in the reason list exactly when detector 7 triggered. -/
lemma mem_reasonsOf_reason7 (p : String) (cs : List Char) :
    reason7 ∈ reasonsOf p cs ↔ fakeIntegrationCond p cs = true := by
  constructor
  · intro h
    simp only [reasonsOf, List.mem_append] at h
    rcases h with ((((((h | h) | h) | h) | h) | h) | h)
    · exact absurd h (not_mem_piece (reason1_ne_reason7 _).symm)
    · exact absurd h (not_mem_piece (by decide))
    · exact absurd h (not_mem_piece (reason3_ne_reason7 _).symm)
    · exact absurd h (not_mem_piece (by decide))
    · exact absurd h (not_mem_piece (by decide))
    · exact absurd h (not_mem_piece (by decide))
    · exact mem_piece_self.mp h
  · intro h
    simp only [reasonsOf, List.mem_append]
    exact Or.inr (mem_piece_self.mpr h)

/-- Inversion for `analyzeTestFile` returning a record. -/
lemma analyzeTestFile_eq_some {p c : String} {rec : SuspiciousTest}
    (h : analyzeTestFile p c = some rec) :
    rec.file = p ∧ rec.reasons = reasonsOf p c.data ∧ rec.reasons ≠ [] ∧
    rec.lineCount = jsLineCount c.data ∧
    rec.confidence =
      (if 3 ≤ rec.reasons.length then "high"
       else if 2 ≤ rec.reasons.length then "medium" else "low") := by
  simp only [analyzeTestFile] at h
  split at h
  · exact absurd h (by simp)
  · next hne =>
    cases h
    refine ⟨rfl, rfl, ?_, rfl, rfl⟩
    intro hnil
    exact hne (by simp [show reasonsOf p c.data = [] from hnil])

/-! ### Helper lemmas about the scanner pipeline -/

/-- Every analysis result in a successful batch comes from some enumerated
file whose read succeeded. -/
lemma readAndAnalyzeAll_ok_mem :
    ∀ {files : List (String × Option String)} {ys : List (Option SuspiciousTest)},
    readAndAnalyzeAll files = .ok ys → ∀ x ∈ ys,
    ∃ p c, (p, some c) ∈ files ∧ x = analyzeTestFile p c := by
  intro files
  induction files with
  | nil =>
    intro ys h x hx
    simp only [readAndAnalyzeAll] at h
    cases h
    simp at hx
  | cons pc rest ih =>
    obtain ⟨p, c?⟩ := pc
    cases c? with
    | none =>
      intro ys h
      simp [readAndAnalyzeAll] at h
    | some c =>
      intro ys h x hx
      simp only [readAndAnalyzeAll] at h
      cases hr : readAndAnalyzeAll rest with
      | error e => rw [hr] at h; exact absurd h (by simp)
      | ok tail =>
        rw [hr] at h
        cases h
        rcases List.mem_cons.mp hx with hx | hx
        · exact ⟨p, c, List.mem_cons_self _ _, hx⟩
        · obtain ⟨p', c', hmem, heq⟩ := ih hr x hx
          exact ⟨p', c', List.mem_cons_of_mem _ hmem, heq⟩

/-- An enumerated file whose read throws aborts the whole batch. -/
lemma readAndAnalyzeAll_error_of_none :
    ∀ {files : List (String × Option String)} {p : String},
    (p, (none : Option String)) ∈ files →
    ∃ e, readAndAnalyzeAll files = .error e := by
  intro files
  induction files with
  | nil => intro p h; simp at h
  | cons pc rest ih =>
    obtain ⟨q, c?⟩ := pc
    intro p h
    cases c? with
    | none => exact ⟨q, rfl⟩
    | some c =>
      rcases List.mem_cons.mp h with h | h
      · exact absurd (congrArg Prod.snd h) (by simp)
      · obtain ⟨e, he⟩ := ih h
        refine ⟨e, ?_⟩
        simp only [readAndAnalyzeAll, he]

lemma mem_insertIntoSorted {le : SuspiciousTest → SuspiciousTest → Bool}
    {x a : SuspiciousTest} {l : List SuspiciousTest} :
    a ∈ insertIntoSorted le x l ↔ a = x ∨ a ∈ l := by
  induction l with
  | nil => simp [insertIntoSorted]
  | cons y ys ih =>
    simp only [insertIntoSorted]
    split
    · simp only [List.mem_cons, ih]
      tauto
    · simp only [List.mem_cons]

lemma mem_stableSort {le : SuspiciousTest → SuspiciousTest → Bool}
    {l : List SuspiciousTest} {a : SuspiciousTest} :
    a ∈ stableSort le l ↔ a ∈ l := by
  have aux : ∀ (l : List SuspiciousTest) (acc : List SuspiciousTest),
      a ∈ l.foldl (fun acc x => insertIntoSorted le x acc) acc ↔ a ∈ acc ∨ a ∈ l := by
    intro l
    induction l with
    | nil => intro acc; simp
    | cons y ys ih =>
      intro acc
      simp only [List.foldl_cons, ih, mem_insertIntoSorted, List.mem_cons]
      tauto
  simpa using aux l []

lemma pairwise_insertIntoSorted {le : SuspiciousTest → SuspiciousTest → Bool}
    (htrans : ∀ a b c, le a b = true → le b c = true → le a c = true)
    (htotal : ∀ a b, le a b = true ∨ le b a = true)
    {x : SuspiciousTest} {l : List SuspiciousTest}
    (h : l.Pairwise (fun a b => le a b = true)) :
    (insertIntoSorted le x l).Pairwise (fun a b => le a b = true) := by
  induction l with
  | nil => simp [insertIntoSorted]
  | cons y ys ih =>
    rcases List.pairwise_cons.mp h with ⟨hy, hys⟩
    simp only [insertIntoSorted]
    split
    · next hyx =>
      refine List.pairwise_cons.mpr ⟨?_, ih hys⟩
      intro z hz
      rcases mem_insertIntoSorted.mp hz with hz | hz
      · exact hz ▸ hyx
      · exact hy z hz
    · next hyx =>
      have hxy : le x y = true := by
        rcases htotal x y with h' | h'
        · exact h'
        · exact absurd h' (by simpa using hyx)
      refine List.pairwise_cons.mpr ⟨?_, h⟩
      intro z hz
      rcases List.mem_cons.mp hz with hz | hz
      · exact hz ▸ hxy
      · exact htrans x y z hxy (hy z hz)

lemma pairwise_stableSort {le : SuspiciousTest → SuspiciousTest → Bool}
    (htrans : ∀ a b c, le a b = true → le b c = true → le a c = true)
    (htotal : ∀ a b, le a b = true ∨ le b a = true)
    (l : List SuspiciousTest) :
    (stableSort le l).Pairwise (fun a b => le a b = true) := by
  have aux : ∀ (l acc : List SuspiciousTest),
      acc.Pairwise (fun a b => le a b = true) →
      (l.foldl (fun acc x => insertIntoSorted le x acc) acc).Pairwise
        (fun a b => le a b = true) := by
    intro l
    induction l with
    | nil => intro acc hacc; simpa using hacc
    | cons y ys ih =>
      intro acc hacc
      exact ih _ (pairwise_insertIntoSorted htrans htotal hacc)
  exact aux l [] (by simp)

lemma scanLE_trans (a b c : SuspiciousTest) :
    scanLE a b = true → scanLE b c = true → scanLE a c = true := by
  simp only [scanLE, scanCompare, decide_eq_true_eq]
  split_ifs <;> omega

lemma scanLE_total (a b : SuspiciousTest) :
    scanLE a b = true ∨ scanLE b a = true := by
  simp only [scanLE, scanCompare, decide_eq_true_eq]
  split_ifs <;> omega

lemma detect_unfold (fs : FileSystem) (opts : DetectorOptions) :
    detectUselessTests fs opts =
      (match readAndAnalyzeAll (scanFiles fs opts) with
       | .error e => .error e
       | .ok analyzed =>
         .ok (stableSort scanLE ((analyzed.filterMap id).filter
           (fun t => jsGE (confidenceLevels t.confidence)
             (confidenceLevels (opts.minConfidence.getD "low")))))) := rfl

lemma detect_ok_inv {fs : FileSystem} {opts : DetectorOptions}
    {res : List SuspiciousTest} (h : detectUselessTests fs opts = .ok res) :
    ∃ analyzed, readAndAnalyzeAll (scanFiles fs opts) = .ok analyzed ∧
      res = stableSort scanLE ((analyzed.filterMap id).filter
        (fun t => jsGE (confidenceLevels t.confidence)
          (confidenceLevels (opts.minConfidence.getD "low")))) := by
  rw [detect_unfold] at h
  cases hr : readAndAnalyzeAll (scanFiles fs opts) with
  | error e => rw [hr] at h; exact absurd h (by simp)
  | ok analyzed =>
    rw [hr] at h
    exact ⟨analyzed, rfl, (Except.ok.inj h).symm⟩

/-- Every record of a successful scan arises from analyzing one enumerated,
successfully read file, and passed the confidence filter. -/
lemma detect_ok_record {fs : FileSystem} {opts : DetectorOptions}
    {res : List SuspiciousTest} {rec : SuspiciousTest}
    (h : detectUselessTests fs opts = .ok res) (hm : rec ∈ res) :
    (∃ p c, (p, some c) ∈ scanFiles fs opts ∧ analyzeTestFile p c = some rec) ∧
    jsGE (confidenceLevels rec.confidence)
      (confidenceLevels (opts.minConfidence.getD "low")) = true := by
  obtain ⟨analyzed, hr, hres⟩ := detect_ok_inv h
  rw [hres] at hm
  have hm2 := mem_stableSort.mp hm
  have hf := List.mem_filter.mp hm2
  refine ⟨?_, by simpa using hf.2⟩
  have hmf := hf.1
  rw [List.mem_filterMap] at hmf
  obtain ⟨x, hx, hid⟩ := hmf
  obtain ⟨p, c, hmem, hxeq⟩ := readAndAnalyzeAll_ok_mem hr x hx
  exact ⟨p, c, hmem, by rw [← hxeq]; simpa using hid⟩

lemma jsGE_some_right {x : Option Nat} {k : Nat} (h : jsGE x (some k) = true) :
    ∃ m, x = some m ∧ k ≤ m := by
  cases x with
  | none => simp [jsGE] at h
  | some m => exact ⟨m, rfl, by simpa [jsGE] using h⟩

lemma jsGE_none_right (x : Option Nat) : jsGE x none = false := by
  cases x <;> rfl

lemma confidenceLevels_eq_none {s : String}
    (h1 : s ≠ "high") (h2 : s ≠ "medium") (h3 : s ≠ "low") :
    confidenceLevels s = none := by
  simp [confidenceLevels, h1, h2, h3]

lemma scanLE_outputOrder {a b : SuspiciousTest} (h : scanLE a b = true) :
    outputOrder a b := by
  simp only [scanLE, scanCompare, decide_eq_true_eq] at h
  constructor
  · simp only [confidenceRank]
    revert h
    split_ifs with hc
    · intro h; omega
    · intro h; omega
  · intro hconf
    revert h
    split_ifs with hc
    · rw [hconf] at hc; simp at hc
    · intro h; omega

/-! ### Helper lemmas about substring scanning (for detector 4) -/

lemma existsPos_iff {cs : List Char} {p : List Char → Bool} :
    existsPos cs p = true ↔ ∃ pre suf, cs = pre ++ suf ∧ p suf = true := by
  induction cs with
  | nil =>
    simp only [existsPos]
    constructor
    · intro h; exact ⟨[], [], rfl, h⟩
    · rintro ⟨pre, suf, heq, hp⟩
      obtain ⟨h1, h2⟩ := List.append_eq_nil.mp heq.symm
      rw [h2] at hp; exact hp
  | cons c rest ih =>
    simp only [existsPos, Bool.or_eq_true, ih]
    constructor
    · rintro (h | ⟨pre, suf, heq, hp⟩)
      · exact ⟨[], c :: rest, rfl, h⟩
      · exact ⟨c :: pre, suf, by rw [heq]; rfl, hp⟩
    · rintro ⟨pre, suf, heq, hp⟩
      cases pre with
      | nil =>
        left
        rw [List.nil_append] at heq
        rw [← heq] at hp
        exact hp
      | cons d pre' =>
        right
        rw [List.cons_append] at heq
        obtain ⟨-, h2⟩ := List.cons.inj heq
        exact ⟨pre', suf, h2, hp⟩

lemma startsWithL_append (s t : List Char) : startsWithL (s ++ t) s = true := by
  induction s with
  | nil => cases t <;> rfl
  | cons a as ih => simp [startsWithL, ih]

lemma startsWithL_iff {l s : List Char} :
    startsWithL l s = true ↔ ∃ t, l = s ++ t := by
  induction s generalizing l with
  | nil =>
    constructor
    · intro _; exact ⟨l, rfl⟩
    · intro _; cases l <;> rfl
  | cons b bs ih =>
    cases l with
    | nil => simp [startsWithL]
    | cons a as =>
      simp only [startsWithL, Bool.and_eq_true, decide_eq_true_eq, ih]
      constructor
      · rintro ⟨rfl, t, rfl⟩; exact ⟨t, rfl⟩
      · rintro ⟨t, heq⟩
        obtain ⟨h1, h2⟩ := List.cons.inj heq
        exact ⟨h1, t, h2⟩

lemma takeWhile_run {p : Char → Bool} :
    ∀ (l : List Char) (c : Char) (t : List Char),
    (∀ x ∈ l, p x = true) → p c = false →
    (l ++ c :: t).takeWhile p = l := by
  intro l c t hl hc
  induction l with
  | nil => simp [List.takeWhile_cons, hc]
  | cons a as ih =>
    have ha : p a = true := hl a (List.mem_cons_self _ _)
    simp only [List.cons_append, List.takeWhile_cons, ha]
    rw [ih (fun x hx => hl x (List.mem_cons_of_mem _ hx))]
    simp

/-- The source-import pattern matches at a parent-relative quoted import. -/
lemma srcImportAt_parent {q : Char} {rel tail : List Char}
    (hq : q = '\x27' ∨ q = '"')
    (hrel : ∀ ch ∈ rel, isQuote ch = false)
    (ht : endsWithL ('.' :: '.' :: '/' :: rel) ".test".data = false)
    (hs : endsWithL ('.' :: '.' :: '/' :: rel) ".spec".data = false) :
    srcImportAt ("from ".data ++ q :: '.' :: '.' :: '/' :: (rel ++ q :: tail)) = true := by
  have hq' : isQuote q = true := by
    rcases hq with h | h <;> simp [isQuote, h]
  have hrun : (rel ++ q :: tail).takeWhile (fun c => !(isQuote c)) = rel :=
    takeWhile_run rel q tail (fun x hx => by simp [hrel x hx]) (by simp [hq'])
  simp only [srcImportAt]
  rw [show startsWithL ("from ".data ++ q :: '.' :: '.' :: '/' :: (rel ++ q :: tail))
        "from ".data = true from startsWithL_append _ _]
  rw [show ("from ".data ++ q :: '.' :: '.' :: '/' :: (rel ++ q :: tail)).drop 5
        = q :: '.' :: '.' :: '/' :: (rel ++ q :: tail) from rfl]
  simp only [hq', Bool.true_and]
  rw [show (('.' :: '.' :: '/' :: (rel ++ q :: tail)).takeWhile (fun c => decide (c = '.'))).length
        = 2 from rfl]
  rw [show (('.' :: '.' :: '/' :: (rel ++ q :: tail)).drop 2) = '/' :: (rel ++ q :: tail) from rfl]
  simp only [show decide (2 ≤ 2) = true from rfl, Bool.true_and, if_pos rfl]
  rw [hrun]
  rw [List.drop_left]
  simp only [hq', Bool.true_and]
  rw [show (List.replicate 2 '.' : List Char) = ['.', '.'] from rfl]
  rw [show (['.', '.'] : List Char) ++ '/' :: rel = '.' :: '.' :: '/' :: rel from rfl]
  simp [ht, hs]

/-! ### Claim theorems -/

/-- C1: for every analyzed file the confidence verdict is a pure function of
the number of triggered detectors (`reasons.length`), independent of which
detectors fired: 3 or more reasons yield "high", exactly 2 yield "medium",
exactly 1 yields "low", and 0 reasons yield no verdict (`analyzeTestFile`
returns `none`, excluding the file from results). -/
theorem confidence_pure_function_of_reason_count (p c : String) :
    (reasonsOf p c.data = [] → analyzeTestFile p c = none) ∧
    (∀ rec, analyzeTestFile p c = some rec →
      rec.reasons.length ≠ 0 ∧
      (3 ≤ rec.reasons.length → rec.confidence = "high") ∧
      (rec.reasons.length = 2 → rec.confidence = "medium") ∧
      (rec.reasons.length = 1 → rec.confidence = "low")) := by
  constructor
  · intro h
    simp [analyzeTestFile, h]
  · intro rec h
    obtain ⟨-, -, hne, -, hconf⟩ := analyzeTestFile_eq_some h
    refine ⟨fun h0 => hne (List.length_eq_zero.mp h0), ?_, ?_, ?_⟩
    · intro h3; rw [hconf, if_pos h3]
    · intro h2; rw [hconf, if_neg (by omega), if_pos (by omega)]
    · intro h1; rw [hconf, if_neg (by omega), if_neg (by omega)]

/-- Witness for C1: a file triggering no detector gets no verdict, and a file
with exactly one reason gets confidence "low". -/
theorem confidence_pure_function_of_reason_count_witness :
    analyzeTestFile "src/nothing.test.ts" "const x = 1" = none ∧
    (⟨"src/a.test.ts", [reason5], "low", 1⟩ : SuspiciousTest).confidence = "low" := by
  constructor
  · exact (confidence_pure_function_of_reason_count "src/nothing.test.ts" "const x = 1").1
      (by decide)
  · exact (((confidence_pure_function_of_reason_count "src/a.test.ts" "In a real test").2
      ⟨"src/a.test.ts", [reason5], "low", 1⟩ (by decide)).2.2.2) rfl

/-- C10: detectors 4 (no source import) and 7 (fake integration test) never
both fire on the same file: detector 4 requires the path not to be recognized
as an integration/e2e test and detector 7 requires it to be so recognized,
so a reason list contains at most one of their two reason strings. -/
theorem detectors4_7_mutually_exclusive (p c : String) (rec : SuspiciousTest)
    (h : analyzeTestFile p c = some rec) :
    ¬(reason4 ∈ rec.reasons ∧ reason7 ∈ rec.reasons) := by
  rintro ⟨h4, h7⟩
  obtain ⟨-, hre, -, -, -⟩ := analyzeTestFile_eq_some h
  rw [hre] at h4 h7
  have c4 := (mem_reasonsOf_reason4 _ _).mp h4
  have c7 := (mem_reasonsOf_reason7 _ _).mp h7
  simp only [noSourceImportCond, Bool.and_eq_true, Bool.not_eq_true'] at c4
  simp only [fakeIntegrationCond, Bool.and_eq_true] at c7
  have hfalse := c7.1.1
  rw [c4.2] at hfalse
  simp at hfalse

/-- Witness for C10: a concrete analyzed record contains at most one of the
two reason strings. -/
theorem detectors4_7_mutually_exclusive_witness :
    analyzeTestFile "src/d.test.ts" "In a real test" =
      some ⟨"src/d.test.ts", [reason5], "low", 1⟩ ∧
    ¬(reason4 ∈ (⟨"src/d.test.ts", [reason5], "low", 1⟩ : SuspiciousTest).reasons ∧
      reason7 ∈ (⟨"src/d.test.ts", [reason5], "low", 1⟩ : SuspiciousTest).reasons) :=
  ⟨by decide,
   detectors4_7_mutually_exclusive "src/d.test.ts" "In a real test" _ (by decide)⟩

/-- C5: a record with zero reasons is never surfaced: every record of a
successful scan has a non-empty reason list, for every option choice
(`minConfidence` included). -/
theorem zero_reason_files_never_surfaced (fs : FileSystem) (opts : DetectorOptions)
    (res : List SuspiciousTest) (rec : SuspiciousTest)
    (h : detectUselessTests fs opts = .ok res) (hm : rec ∈ res) :
    rec.reasons ≠ [] := by
  obtain ⟨⟨p, c, -, han⟩, -⟩ := detect_ok_record h hm
  exact (analyzeTestFile_eq_some han).2.2.1

/-- Witness for C5: applied to a concrete one-file scan. -/
theorem zero_reason_files_never_surfaced_witness :
    (⟨"src/a.test.ts", [reason5], "low", 1⟩ : SuspiciousTest).reasons ≠ [] :=
  zero_reason_files_never_surfaced exampleFS1 ⟨none, none, none⟩
    [⟨"src/a.test.ts", [reason5], "low", 1⟩] _ (by rfl) (by simp)

/-- C9: a directory whose name contains `node_modules` or `dist` is pruned
entirely: the File Locator's output does not depend on the directory's
contents (it is scanned as if the directory were empty), so a file inside it
never appears, even if its name matches a test pattern. -/
theorem excluded_dirs_pruned (dirPath : String) (patterns : List (String → Bool))
    (name : String) (sub rest : FSList)
    (h : containsL name.data "node_modules".data = true ∨
         containsL name.data "dist".data = true) :
    findInListing dirPath patterns (.consDir name sub rest) =
    findInListing dirPath patterns (.consDir name .nil rest) := by
  have hguard : (!(containsL name.data "node_modules".data) &&
      !(containsL name.data "dist".data)) = false := by
    rcases h with h | h <;> simp [h]
  simp only [findInListing]
  rw [hguard]
  simp

/-- Witness for C9: a matching test file inside a `node_modules` directory
contributes nothing. -/
theorem excluded_dirs_pruned_witness :
    findInListing "src" DEFAULT_TEST_PATTERNS
      (.consDir "node_modules" (.consFile "evil.test.ts" (some "x") .nil) .nil) =
    findInListing "src" DEFAULT_TEST_PATTERNS (.consDir "node_modules" .nil .nil) :=
  excluded_dirs_pruned "src" DEFAULT_TEST_PATTERNS "node_modules"
    (.consFile "evil.test.ts" (some "x") .nil) .nil (Or.inl (by decide))

/-- C2 counterexample: `analyzeTestFile` wraps `readFileSync` in no
`try`/`catch`, so a file that vanishes between enumeration and read is not
skipped — the exception aborts the whole scan.  Here `src/a.test.ts` reads
fine but `src/b.test.ts` does not, and the batch returns an error instead of
completing with the remaining files. -/
theorem read_error_aborts_scan_cex :
    detectUselessTests exampleFSErr ⟨none, none, none⟩ =
      Except.error "src/b.test.ts" := rfl

/-- C2 amended: if reading any enumerated file raises an error, the whole
scan fails with that exception; the file is not silently skipped and the
batch does not complete.  (Only unreadable root directories are recovered
locally, in `findTestFiles`.) -/
theorem read_error_aborts_scan (fs : FileSystem) (opts : DetectorOptions) (p : String)
    (h : (p, (none : Option String)) ∈ scanFiles fs opts) :
    isOkB (detectUselessTests fs opts) = false := by
  obtain ⟨e, he⟩ := readAndAnalyzeAll_error_of_none h
  rw [detect_unfold, he]
  rfl

/-- Witness for the amended C2 at a concrete filesystem. -/
theorem read_error_aborts_scan_witness :
    ("src/b.test.ts", (none : Option String)) ∈ scanFiles exampleFSErr ⟨none, none, none⟩ ∧
    isOkB (detectUselessTests exampleFSErr ⟨none, none, none⟩) = false :=
  ⟨by decide,
   read_error_aborts_scan exampleFSErr ⟨none, none, none⟩ "src/b.test.ts" (by decide)⟩

/-- C3 counterexample: the integration-test regex requires a path separator
immediately before `integration`, so `checkout.integration.test.ts` is not
recognized; with no fetch/request/render call in the text, detector 7 does
not fire and the file gets no reason at all (no verdict), contradicting the
claimed "at least one reason, confidence low". -/
theorem checkout_integration_not_recognized_cex :
    analyzeTestFile "src/checkout.integration.test.ts" "" = none := rfl

/-- C3 amended: detector 7 fires exactly for files recognized by
`isIntegrationTest` — the basename must be `integration.test.*` or
`e2e.test.*` right after a path separator (a `checkout.integration.test.ts`
basename does not qualify).  For such a file with no fetch/request/http-client
and no render call, detector 7 fires, the file gets at least one reason, and
if no other detector fires the verdict is "low". -/
theorem fake_integration_detector_fires (path content : String)
    (hint : isIntegrationTest path = true)
    (hf : hasFetch content.data = false)
    (hr : hasRender content.data = false) :
    reason7 ∈ reasonsOf path content.data ∧
    analyzeTestFile path content ≠ none ∧
    (inlineImplCount content.data = 0 → typeOnlyCond content.data = false →
     mockAssertionCount content.data ≤ 3 → admissionCond content.data = false →
     builtinOnlyCond content.data = false →
     analyzeTestFile path content =
       some ⟨path, [reason7], "low", jsLineCount content.data⟩) := by
  have hcond : fakeIntegrationCond path content.data = true := by
    simp [fakeIntegrationCond, hint, hf, hr]
  have hmem : reason7 ∈ reasonsOf path content.data :=
    (mem_reasonsOf_reason7 _ _).mpr hcond
  refine ⟨hmem, ?_, ?_⟩
  · intro hnone
    simp only [analyzeTestFile] at hnone
    split at hnone
    · next hlen =>
      rw [List.length_eq_zero] at hlen
      rw [hlen] at hmem
      simp at hmem
    · exact absurd hnone (by simp)
  · intro h1 h2 h3 h4 h5
    have hns : noSourceImportCond path content.data = false := by
      simp [noSourceImportCond, hint]
    have hm : ¬(3 < mockAssertionCount content.data) := by omega
    have hreq : reasonsOf path content.data = [reason7] := by
      simp [reasonsOf, h1, h2, h4, h5, hns, hcond, hm]
    simp [analyzeTestFile, hreq]

/-- Witness for the amended C3: `src/integration.test.ts` with empty content
gets exactly the detector-7 reason and confidence "low". -/
theorem fake_integration_detector_fires_witness :
    reason7 ∈ reasonsOf "src/integration.test.ts" "".data ∧
    analyzeTestFile "src/integration.test.ts" "" =
      some ⟨"src/integration.test.ts", [reason7], "low", 1⟩ := by
  have h := fake_integration_detector_fires "src/integration.test.ts" ""
    (by decide) (by decide) (by decide)
  exact ⟨h.1, h.2.2 (by decide) (by decide) (by decide) (by decide) (by decide)⟩

/-- C4 counterexample: the source-import regex demands at least two leading
dots (`\.\.+`), so a sibling relative import `./helper` is not recognized as
a source import; detector 4 fires on this file even though it imports a
sibling module, contradicting the claim that a "sibling or parent"
relative import suppresses it. -/
theorem sibling_import_not_source_cex :
    analyzeTestFile "src/foo.test.ts"
      "import x from \x27./helper\x27\nimport s from \x27@testing-library/react\x27" =
      some ⟨"src/foo.test.ts", [reason4], "low", 2⟩ := by decide

/-- C4 amended: detector 4 never fires on a file containing a
parent-relative import — one whose quoted path starts with `../` and does not end in `.test`
or `.spec`.  (Sibling `./` imports do not count as source imports.) -/
theorem parent_import_suppresses_detector4 (path content : String) (q : Char)
    (rel : List Char)
    (hq : q = '\x27' ∨ q = '"')
    (hrel : ∀ ch ∈ rel, isQuote ch = false)
    (ht : endsWithL ('.' :: '.' :: '/' :: rel) ".test".data = false)
    (hs : endsWithL ('.' :: '.' :: '/' :: rel) ".spec".data = false)
    (hcont : containsL content.data
      ("from ".data ++ q :: '.' :: '.' :: '/' :: rel ++ [q]) = true) :
    reason4 ∉ reasonsOf path content.data := by
  intro hmem
  have c4 := (mem_reasonsOf_reason4 _ _).mp hmem
  simp only [noSourceImportCond, Bool.and_eq_true, Bool.not_eq_true'] at c4
  have hsrc : hasSourceImports content.data = true := by
    obtain ⟨pre, suf, heq, hsw⟩ := existsPos_iff.mp hcont
    obtain ⟨t, hsuf⟩ := startsWithL_iff.mp hsw
    rw [hasSourceImports, existsPos_iff]
    refine ⟨pre, suf, heq, ?_⟩
    rw [hsuf]
    have hassoc : ("from ".data ++ q :: '.' :: '.' :: '/' :: rel ++ [q]) ++ t =
        "from ".data ++ q :: '.' :: '.' :: '/' :: (rel ++ q :: t) := by
      simp [List.append_assoc]
    rw [hassoc]
    exact srcImportAt_parent hq hrel ht hs
  rw [c4.1.2] at hsrc
  simp at hsrc

/-- Witness for the amended C4: a `../util` import suppresses detector 4. -/
theorem parent_import_suppresses_detector4_witness :
    reason4 ∉ reasonsOf "src/w.test.ts"
      "import x from \x27../util\x27\nimport s from \x27@testing-library/react\x27".data :=
  parent_import_suppresses_detector4 "src/w.test.ts"
    "import x from \x27../util\x27\nimport s from \x27@testing-library/react\x27"
    '\x27' "util".data (Or.inl rfl) (by decide) (by decide) (by decide) (by decide)

lemma jsGE_rank_mono {x : Option Nat} {j k : Nat} (hjk : j ≤ k)
    (h : jsGE x (some k) = true) : jsGE x (some j) = true := by
  obtain ⟨m, rfl, hk⟩ := jsGE_some_right h
  simp only [jsGE, decide_eq_true_eq]
  omega

/-- C6: in every output sequence confidence rank (high 3, medium 2, low 1) is
non-increasing, and among consecutive records of equal confidence the line
count is non-increasing. -/
theorem output_sorted_by_confidence_then_lines (fs : FileSystem)
    (opts : DetectorOptions) (res : List SuspiciousTest)
    (h : detectUselessTests fs opts = .ok res) :
    List.Chain' outputOrder res := by
  obtain ⟨analyzed, -, hres⟩ := detect_ok_inv h
  rw [hres]
  have hp := pairwise_stableSort scanLE_trans scanLE_total
    ((analyzed.filterMap id).filter
      (fun t => jsGE (confidenceLevels t.confidence)
        (confidenceLevels (opts.minConfidence.getD "low"))))
  exact (hp.imp (fun hab => scanLE_outputOrder hab)).chain'

/-- Witness for C6 on a concrete two-record output. -/
theorem output_sorted_by_confidence_then_lines_witness :
    List.Chain' outputOrder
      [⟨"src/b.test.ts", [reason5], "low", 3⟩, ⟨"src/a.test.ts", [reason5], "low", 1⟩] :=
  output_sorted_by_confidence_then_lines exampleFS2 ⟨none, none, none⟩ _ (by rfl)

/-- C7: confidence filtering is monotonic — for the same filesystem,
directories and patterns, the records returned at `minConfidence = "high"`
are a subset of those at `"medium"`, which are a subset of those at
`"low"`. -/
theorem minConfidence_filter_monotonic (fs : FileSystem)
    (dirs : Option (List String)) (pats : Option (List (String → Bool)))
    (resH resM resL : List SuspiciousTest)
    (hH : detectUselessTests fs ⟨dirs, some "high", pats⟩ = .ok resH)
    (hM : detectUselessTests fs ⟨dirs, some "medium", pats⟩ = .ok resM)
    (hL : detectUselessTests fs ⟨dirs, some "low", pats⟩ = .ok resL) :
    resH ⊆ resM ∧ resM ⊆ resL := by
  obtain ⟨aH, hrH, heH⟩ := detect_ok_inv hH
  obtain ⟨aM, hrM, heM⟩ := detect_ok_inv hM
  obtain ⟨aL, hrL, heL⟩ := detect_ok_inv hL
  have hsameHM : scanFiles fs ⟨dirs, some "high", pats⟩ =
      scanFiles fs ⟨dirs, some "medium", pats⟩ := rfl
  have hsameML : scanFiles fs ⟨dirs, some "medium", pats⟩ =
      scanFiles fs ⟨dirs, some "low", pats⟩ := rfl
  rw [hsameHM] at hrH
  have haHM : aM = aH := Except.ok.inj (hrM.symm.trans hrH)
  rw [hsameML] at hrM
  have haML : aL = aM := Except.ok.inj (hrL.symm.trans hrM)
  constructor
  · intro x hx
    rw [heH] at hx
    rw [heM]
    obtain ⟨hmf, hpred⟩ := List.mem_filter.mp (mem_stableSort.mp hx)
    have hpred3 : jsGE (confidenceLevels x.confidence) (some 3) = true := hpred
    refine mem_stableSort.mpr (List.mem_filter.mpr ⟨?_, ?_⟩)
    · rw [haHM]; exact hmf
    · exact (jsGE_rank_mono (by omega) hpred3 :
        jsGE (confidenceLevels x.confidence) (some 2) = true)
  · intro x hx
    rw [heM] at hx
    rw [heL]
    obtain ⟨hmf, hpred⟩ := List.mem_filter.mp (mem_stableSort.mp hx)
    have hpred2 : jsGE (confidenceLevels x.confidence) (some 2) = true := hpred
    refine mem_stableSort.mpr (List.mem_filter.mpr ⟨?_, ?_⟩)
    · rw [haML]; exact hmf
    · exact (jsGE_rank_mono (by omega) hpred2 :
        jsGE (confidenceLevels x.confidence) (some 1) = true)

/-- Witness for C7 on a concrete scan whose single record is "high". -/
theorem minConfidence_filter_monotonic_witness :
    ([⟨"src/c.test.ts", [reason1 1, reason2, reason5], "high", 3⟩] :
      List SuspiciousTest) ⊆
      [⟨"src/c.test.ts", [reason1 1, reason2, reason5], "high", 3⟩] ∧
    ([⟨"src/c.test.ts", [reason1 1, reason2, reason5], "high", 3⟩] :
      List SuspiciousTest) ⊆
      [⟨"src/c.test.ts", [reason1 1, reason2, reason5], "high", 3⟩] :=
  minConfidence_filter_monotonic exampleFS3 none none _ _ _ (by rfl) (by rfl) (by rfl)

/-- C8: an unrecognized `minConfidence` value is not rejected; it has no rank,
the filter comparison is always false, and the scan returns an empty result
sequence. -/
theorem invalid_minConfidence_excludes_all (fs : FileSystem)
    (dirs : Option (List String)) (pats : Option (List (String → Bool)))
    (s : String) (res : List SuspiciousTest)
    (h1 : s ≠ "high") (h2 : s ≠ "medium") (h3 : s ≠ "low")
    (h : detectUselessTests fs ⟨dirs, some s, pats⟩ = .ok res) :
    res = [] := by
  obtain ⟨analyzed, -, hres⟩ := detect_ok_inv h
  rw [hres]
  have hnone : confidenceLevels
      ((⟨dirs, some s, pats⟩ : DetectorOptions).minConfidence.getD "low") = none :=
    confidenceLevels_eq_none h1 h2 h3
  simp only [hnone, jsGE_none_right]
  simp [stableSort]

/-- Witness for C8: `minConfidence = "banana"` yields an empty result on a
filesystem whose files do trigger detectors. -/
theorem invalid_minConfidence_excludes_all_witness :
    detectUselessTests exampleFS2 ⟨some ["src"], some "banana", none⟩ = Except.ok [] ∧
    ([] : List SuspiciousTest) = [] :=
  ⟨rfl, invalid_minConfidence_excludes_all exampleFS2 (some ["src"]) none "banana" []
    (by decide) (by decide) (by decide) rfl⟩
